import Mathlib

/-!
# Listener bootstrap (`runner/runner.go`)

A shallow embedding of package `runner`: the host/port rewriter `changePort`,
the redirect responder `redirectToHTTPS`, the keep-alive installer
`setKeepAlivePeriod` and the bootstrap routine `Run`, together with the parts
of the Go standard library whose behaviour decides what these functions
return (`net.SplitHostPort`, `net.JoinHostPort`, `http.Error`,
`http.Redirect`, the integer-to-string conversion and `fmt`'s `%d`).

Conventions.
* A Go `string` is a sequence of bytes; it is modelled as `List (Fin 256)`.
  String constants of the source are written `go "..."`, the UTF-8 bytes of
  the literal, which is what the Go compiler stores.
* Go `int` is the 64-bit signed integer of the usual targets; values are `Int`
  and the one multiplication that can leave the range is wrapped explicitly.
* An index that Go reports as `-1` when a byte is absent is an `Option Nat`.
* Calls that act on the outside world (printing, binding a socket, setting a
  socket option, leaving the process) are recorded as events, and the results
  the outside world hands back are parameters.
-/

set_option autoImplicit false
set_option maxRecDepth 8000

namespace Runner

/-! ## Go strings -/

/-- One byte of a Go string. -/
abbrev Byte := Fin 256

/-- Go `string`: an immutable sequence of bytes. -/
abbrev GoString := List Byte

/-- Truncation of a natural number to a byte, Go `byte(x)`. -/
def toByte (n : Nat) : Byte := Fin.ofNat n

/-- UTF-8 encoding of a code point, Go `utf8.AppendRune`: code points that are
negative, above `0x10FFFF` or in the surrogate range encode as `U+FFFD`. -/
def encodeRune (r : Int) : GoString :=
  if r < 0 ∨ 0x10FFFF < r ∨ (0xD800 ≤ r ∧ r ≤ 0xDFFF) then
    [toByte 0xEF, toByte 0xBF, toByte 0xBD]
  else
    let n := r.toNat
    if n ≤ 0x7F then [toByte n]
    else if n ≤ 0x7FF then [toByte (0xC0 + n / 64), toByte (0x80 + n % 64)]
    else if n ≤ 0xFFFF then
      [toByte (0xE0 + n / 4096), toByte (0x80 + n / 64 % 64), toByte (0x80 + n % 64)]
    else
      [toByte (0xF0 + n / 262144), toByte (0x80 + n / 4096 % 64),
       toByte (0x80 + n / 64 % 64), toByte (0x80 + n % 64)]

/-- The bytes of a string constant of the source. -/
def go (s : String) : GoString :=
  s.data.flatMap (fun c => encodeRune (Int.ofNat c.toNat))

/-- Go `string(i)` for an integer `i`: the UTF-8 encoding of the code point
`i`, and of `U+FFFD` when `i` is not a valid code point. It is not the decimal
rendering of `i`. -/
def stringOfInt (i : Int) : GoString := encodeRune i

/-- Decimal rendering of an integer, the verb `%d` of `fmt` and
`strconv.Itoa`. -/
def formatInt (i : Int) : GoString := go (toString i)

/-- Go `strings.IndexByte`: position of the first occurrence of `c`. -/
def IndexByte : GoString → Byte → Option Nat
  | [], _ => none
  | b :: s, c => if b = c then some 0 else (IndexByte s c).map (· + 1)

/-- Go `strings.LastIndexByte`: position of the last occurrence of `c`. -/
def LastIndexByte : GoString → Byte → Option Nat
  | [], _ => none
  | b :: s, c =>
    match LastIndexByte s c with
    | some i => some (i + 1)
    | none => if b = c then some 0 else none

/-- Go slice expression `s[lo:hi]`. -/
def slice (s : GoString) (lo hi : Nat) : GoString := (s.take hi).drop lo

/-! ## `net.SplitHostPort` and `net.JoinHostPort` -/

/-- Go `net.AddrError`. -/
structure AddrError where
  Err : GoString
  Addr : GoString
deriving DecidableEq, Repr

/-- The byte `':'`. -/
def colon : Byte := 58
/-- The byte `'['`. -/
def lbrack : Byte := 91
/-- The byte `']'`. -/
def rbrack : Byte := 93
/-- The byte `'%'`. -/
def percent : Byte := 37

/-- Go `net.SplitHostPort`: splits `host:port`, `[host]:port` into host and
port. The port starts after the last colon; a bracketed host must close just
before that colon; a host without brackets must contain no colon; no stray
bracket may follow. -/
def SplitHostPort (hostport : GoString) : Except AddrError (GoString × GoString) :=
  let missingPort := go "missing port in address"
  let tooManyColons := go "too many colons in address"
  let addrErr := fun (why : GoString) =>
    (Except.error ⟨why, hostport⟩ : Except AddrError (GoString × GoString))
  match LastIndexByte hostport colon with
  | none => addrErr missingPort
  | some i =>
    let bracketed : Except AddrError (GoString × Nat × Nat) :=
      if hostport.head? = some lbrack then
        match IndexByte hostport rbrack with
        | none => Except.error ⟨go "missing ']' in address", hostport⟩
        | some e =>
          if e + 1 = hostport.length then Except.error ⟨missingPort, hostport⟩
          else if e + 1 = i then Except.ok (slice hostport 1 e, 1, e + 1)
          else if hostport.get? (e + 1) = some colon then
            Except.error ⟨tooManyColons, hostport⟩
          else Except.error ⟨missingPort, hostport⟩
      else
        let host := hostport.take i
        if (IndexByte host colon).isSome then Except.error ⟨tooManyColons, hostport⟩
        else Except.ok (host, 0, 0)
    match bracketed with
    | Except.error e => Except.error e
    | Except.ok (host, j, k) =>
      if (IndexByte (hostport.drop j) lbrack).isSome then
        addrErr (go "unexpected '[' in address")
      else if (IndexByte (hostport.drop k) rbrack).isSome then
        addrErr (go "unexpected ']' in address")
      else Except.ok (host, hostport.drop (i + 1))

/-- Go `net.JoinHostPort`: `host:port`, with the host in brackets when it
contains a colon. -/
def JoinHostPort (host port : GoString) : GoString :=
  if (IndexByte host colon).isSome then go "[" ++ host ++ go "]:" ++ port
  else host ++ go ":" ++ port

/-! ## `changePort` -/

/-- Source `changePort`: the host of `hostPort` joined with `port`, and
`hostPort` itself when it does not split. -/
def changePort (hostPort : GoString) (port : GoString) : GoString :=
  match SplitHostPort hostPort with
  | Except.error _ => hostPort
  | Except.ok (host, _) => JoinHostPort host port

/-! ## The HTTP response writer, `http.Error` and `http.Redirect` -/

/-- The part of `http.Request` the redirect responder reads: the method, the
host header, and `URL_RequestURI`, the value of `r.URL.RequestURI()` (escaped
path, then `?` and the raw query when there is one). -/
structure Request where
  Method : GoString
  Host : GoString
  URL_RequestURI : GoString
deriving DecidableEq, Repr

/-- What a handler has written to its `http.ResponseWriter`: the header map,
the status passed to the first `WriteHeader` (none before it), and the body
bytes written so far. -/
structure ResponseWriter where
  Header : List (GoString × GoString)
  Status : Option Nat
  Body : GoString
deriving DecidableEq, Repr

/-- The writer a server hands to a handler: nothing written yet. -/
def newResponseWriter : ResponseWriter := ⟨[], none, []⟩

/-- Go `Header.Get` on a canonical key. -/
def headerGet (h : List (GoString × GoString)) (key : GoString) : Option GoString :=
  (h.find? (fun kv => kv.1 = key)).map (·.2)

/-- Go `Header.Del` on a canonical key. -/
def headerDel (h : List (GoString × GoString)) (key : GoString) :
    List (GoString × GoString) :=
  h.filter (fun kv => kv.1 ≠ key)

/-- Go `Header.Set` on a canonical key: the value replaces any present one. -/
def headerSet (h : List (GoString × GoString)) (key value : GoString) :
    List (GoString × GoString) :=
  (key, value) :: headerDel h key

/-- Go `ResponseWriter.WriteHeader`: the first call fixes the status, later
calls are superfluous and ignored. -/
def WriteHeader (w : ResponseWriter) (code : Nat) : ResponseWriter :=
  match w.Status with
  | none => { w with Status := some code }
  | some _ => w

/-- Go `fmt.Fprintln(w, s)` on a response writer: the operand and a newline
are appended to the body; a write before any `WriteHeader` sends status 200. -/
def Fprintln (w : ResponseWriter) (s : GoString) : ResponseWriter :=
  let w1 := WriteHeader w 200
  { w1 with Body := w1.Body ++ s ++ go "\n" }

/-- Go `http.StatusBadRequest`. -/
def StatusBadRequest : Nat := 400
/-- Go `http.StatusFound`. -/
def StatusFound : Nat := 302

/-- Go `http.StatusText`, on the two codes used by this package. -/
def StatusText (code : Nat) : GoString :=
  if code = StatusFound then go "Found"
  else if code = StatusBadRequest then go "Bad Request"
  else []

/-- Go `http.Error`: plain-text content type, `nosniff`, the status, then the
message followed by a newline as the body. -/
def Error (w : ResponseWriter) (error : GoString) (code : Nat) : ResponseWriter :=
  let h := headerDel w.Header (go "Content-Length")
  let h := headerSet h (go "Content-Type") (go "text/plain; charset=utf-8")
  let h := headerSet h (go "X-Content-Type-Options") (go "nosniff")
  Fprintln (WriteHeader { w with Header := h } code) error

/-- Lower-case hexadecimal digits of a number, Go `strconv.AppendInt(_, n, 16)`
for `n ≥ 0`. -/
def appendHex (n : Nat) : GoString :=
  (Nat.toDigits 16 n).map (fun c => toByte c.toNat)

/-- Go `hexEscapeNonASCII` of `net/http`: every byte `≥ 0x80` becomes `%`
followed by its hexadecimal digits; the other bytes are kept. -/
def hexEscapeNonASCII (s : GoString) : GoString :=
  s.flatMap (fun b => if 0x80 ≤ b.val then percent :: appendHex b.val else [b])

/-- Go `htmlEscape` of `net/http`: the replacer for `&`, `<`, `>`, `"`, `'`. -/
def htmlEscape (s : GoString) : GoString :=
  s.flatMap (fun b =>
    if b = 38 then go "&amp;"
    else if b = 60 then go "&lt;"
    else if b = 62 then go "&gt;"
    else if b = 34 then go "&#34;"
    else if b = 39 then go "&#39;"
    else [b])

/-- Loop of Go `getScheme` (package `net/url`) at index `i`, with `rest` the
bytes from `i` on. -/
def getSchemeFrom (rawURL : GoString) :
    Nat → GoString → Except GoString (GoString × GoString)
  | _, [] => Except.ok ([], rawURL)
  | i, c :: rest =>
    if (97 ≤ c.val ∧ c.val ≤ 122) ∨ (65 ≤ c.val ∧ c.val ≤ 90) then
      getSchemeFrom rawURL (i + 1) rest
    else if (48 ≤ c.val ∧ c.val ≤ 57) ∨ c = 43 ∨ c = 45 ∨ c = 46 then
      if i = 0 then Except.ok ([], rawURL) else getSchemeFrom rawURL (i + 1) rest
    else if c = colon then
      if i = 0 then Except.error (go "missing protocol scheme")
      else Except.ok (rawURL.take i, rawURL.drop (i + 1))
    else Except.ok ([], rawURL)

/-- Go `getScheme` (package `net/url`): the scheme of a raw URL and what
follows its colon; the empty scheme when the URL does not start with one. -/
def getScheme (rawURL : GoString) : Except GoString (GoString × GoString) :=
  getSchemeFrom rawURL 0 rawURL

/-- Go `http.Redirect`. The library first rewrites a relative `url` against
the request path; that applies only when `url.Parse` succeeds with an empty
scheme and host, which needs `getScheme` to return the empty scheme. Such
urls are outside this model (`none`); for every other url the function sets
`Location` to the hex-escaped url, sets the HTML content type for GET and HEAD
unless one was present, writes the status, and for GET writes the short HTML
body. -/
def Redirect (w : ResponseWriter) (r : Request) (url : GoString) (code : Nat) :
    Option ResponseWriter :=
  match getScheme url with
  | Except.ok ([], _) => none
  | _ =>
    let hadCT := (headerGet w.Header (go "Content-Type")).isSome
    let h := headerSet w.Header (go "Location") (hexEscapeNonASCII url)
    let h :=
      if ¬ hadCT ∧ (r.Method = go "GET" ∨ r.Method = go "HEAD") then
        headerSet h (go "Content-Type") (go "text/html; charset=utf-8")
      else h
    let w1 := WriteHeader { w with Header := h } code
    if ¬ hadCT ∧ r.Method = go "GET" then
      some (Fprintln w1
        (go "<a href=\"" ++ htmlEscape url ++ go "\">" ++ StatusText code ++ go "</a>.\n"))
    else some w1

/-! ## `redirectToHTTPS` -/

/-- Source `redirectToHTTPS`: the handler that answers a request other than
GET and HEAD with `http.Error(w, "Use HTTPS", 400)` and redirects GET and HEAD
to `"https://" + changePort(r.Host, port) + r.URL.RequestURI()` with status
302. -/
def redirectToHTTPS (port : GoString) (r : Request) (w : ResponseWriter) :
    Option ResponseWriter :=
  if r.Method ≠ go "GET" ∧ r.Method ≠ go "HEAD" then
    some (Error w (go "Use HTTPS") StatusBadRequest)
  else
    let target := go "https://" ++ changePort r.Host port ++ r.URL_RequestURI
    Redirect w r target StatusFound

/-! ## Servers, connections and `setKeepAlivePeriod` -/

/-- Go `int64(x)` on an integer result: wrap-around into the signed 64-bit
range. -/
def wrapInt64 (x : Int) : Int := (x + 2 ^ 63) % 2 ^ 64 - 2 ^ 63

/-- Go `time.Second`, in nanoseconds (the unit of `time.Duration`). -/
def Second : Int := 1000000000

/-- The dynamic type of a `net.Conn` value: a `*net.TCPConn` on the socket
`fd`, or a `*tls.Conn` wrapping another connection. -/
inductive Conn where
  | TCPConn (fd : Nat)
  | TLSConn (inner : Conn)
deriving DecidableEq, Repr

/-- Go `http.ConnState`. -/
inductive ConnState where
  | StateNew
  | StateActive
  | StateIdle
  | StateHijacked
  | StateClosed
deriving DecidableEq, Repr

/-- What a connection-state observer does to the outside world: a call of
`SetKeepAlivePeriod` on the TCP connection `fd` with a duration in
nanoseconds, or a line printed by `fmt.Println` with the given operands. -/
inductive ConnEvent where
  | SetKeepAlivePeriod (fd : Nat) (d : Int)
  | Println (operands : List GoString)
deriving DecidableEq, Repr

/-- The result `SetKeepAlivePeriod` returns for a socket and a duration: no
error, or the text of the error. -/
abbrev SockOpt := Nat → Int → Option GoString

/-- A `ConnState` callback: given the connection, its new state and the
behaviour of the socket layer, the events it causes, or the run-time panic it
raises. -/
abbrev Observer := Conn → ConnState → SockOpt → Except GoString (List ConnEvent)

/-- Go type assertion `conn.(*net.TCPConn)` in its single-value form: it
yields the TCP connection when that is the dynamic type of `conn` and panics
otherwise. -/
def assertTCPConn : Conn → Except GoString Nat
  | Conn.TCPConn fd => Except.ok fd
  | Conn.TLSConn _ =>
    Except.error (go "interface conversion: net.Conn is *tls.Conn, not *net.TCPConn")

/-- The `autocert.Manager` value that `Run` builds: what its prompt answers,
the hosts of its whitelist policy and the directory of its cache. -/
structure CertManager where
  Prompt : Bool
  HostPolicy : List GoString
  Cache : GoString
deriving DecidableEq, Repr

/-- The `http.Handler` values that occur in `Run`: the application handler
`engine`, the closure `redirectToHTTPS(port)`, and
`certManager.HTTPHandler(fallback)`, which answers ACME HTTP-01 challenges and
passes every other request to `fallback`. -/
inductive Handler where
  | engine
  | redirectToHTTPS (port : GoString)
  | HTTPHandler (certManager : CertManager) (fallback : Handler)
deriving DecidableEq, Repr

/-- Whether requests can reach the application handler through a handler. -/
def Handler.servesEngine : Handler → Bool
  | Handler.engine => true
  | Handler.redirectToHTTPS _ => false
  | Handler.HTTPHandler _ fallback => fallback.servesEngine

/-- The `tls.Config` that `Run` builds: its `GetCertificate` is the one of the
given certificate manager. -/
structure TLSConfig where
  GetCertificate : CertManager
deriving DecidableEq, Repr

/-- The fields of `http.Server` that this package sets. -/
structure Server where
  Addr : GoString
  Handler : Handler
  TLSConfig : Option TLSConfig
  ConnState : Option Observer

/-- Source `setKeepAlivePeriod`: nothing for period zero; otherwise installs
the `ConnState` callback that, on `StateNew`, asserts the connection to be a
`*net.TCPConn`, sets its keep-alive period to
`time.Duration(periodSeconds) * time.Second` and prints the error if the call
returns one. -/
def setKeepAlivePeriod (srv : Server) (periodSeconds : Int) : Server :=
  if periodSeconds = 0 then srv
  else
    { srv with
      ConnState := some (fun conn state sockopt =>
        if state = ConnState.StateNew then
          match assertTCPConn conn with
          | Except.error p => Except.error p
          | Except.ok fd =>
            let d := wrapInt64 (periodSeconds * Second)
            match sockopt fd d with
            | some err =>
              Except.ok [ConnEvent.SetKeepAlivePeriod fd d,
                ConnEvent.Println [go "Could not set keep alive period", err]]
            | none => Except.ok [ConnEvent.SetKeepAlivePeriod fd d]
        else Except.ok []) }

/-! ## Configuration and `Run` -/

/-- Modelled from the spec: the type of `conf.Server.SSL.LetsEncrypt`
(package `config` is not among the sources): the automatic-issuance sub-config
with its enabled flag, terms-of-service flag, host whitelist and cache
directory. The `*bool` fields are the values they point to. -/
structure LetsEncryptConf where
  Enabled : Bool
  AcceptTOS : Bool
  Cache : GoString
  Hosts : List GoString
deriving DecidableEq, Repr

/-- Modelled from the spec: the type of `conf.Server.SSL` (package `config`
is not among the sources): TLS enabled flag, redirect flag, bind address and
port, certificate and key paths, and the automatic-issuance sub-config. The
port is a Go `int`: the source prints it with `%d`. -/
structure SSLConf where
  Enabled : Bool
  RedirectToHTTPS : Bool
  ListenAddr : GoString
  Port : Int
  CertFile : GoString
  CertKey : GoString
  LetsEncrypt : LetsEncryptConf
deriving DecidableEq, Repr

/-- Modelled from the spec: the type of `conf.Server` (package `config` is
not among the sources): keep-alive period in seconds (the `int` parameter of
`setKeepAlivePeriod`), plain bind address and port, and the TLS settings. -/
structure ServerConf where
  KeepAlivePeriodSeconds : Int
  ListenAddr : GoString
  Port : Int
  SSL : SSLConf
deriving DecidableEq, Repr

/-- Modelled from the spec: `config.Configuration`, of which `Run` reads the
`Server` part only. -/
structure Configuration where
  Server : ServerConf
deriving DecidableEq, Repr

/-- A bound listener, the value `net.Listen` returns. -/
structure Listener where
  fd : Nat
deriving DecidableEq, Repr

/-- What `Run` does to the outside world, in program order: a line printed by
`fmt.Println`; the background task `go func() { log.Fatal(s.ListenAndServeTLS(
certFile, certKey)) }()`; a call of `net.Listen`; entering `server.Serve` on a
listener; `log.Fatal` (print, then exit with status 1); `os.Exit`. -/
inductive Event where
  | Println (operands : List GoString)
  | GoListenAndServeTLS (s : Server) (certFile certKey : GoString)
  | Listen (network address : GoString)
  | Serve (server : Server) (l : Listener)
  | LogFatal (err : GoString)
  | Exit (code : Nat)

/-- Whether an event is the entry into a serve loop by `server.Serve`. -/
def Event.isServe : Event → Bool
  | Event.Serve _ _ => true
  | _ => false

/-- Go `fmt.Sprintf("%s:%d", addr, port)`. -/
def Sprintf_s_d (addr : GoString) (port : Int) : GoString :=
  addr ++ go ":" ++ formatInt port

/-- What a run of `Run` built and did: the TLS server handed to the
background task (none when TLS is disabled), the plain server, and the events
of the main line of execution. -/
structure Outcome where
  s : Option Server
  server : Server
  trace : List Event

/-- Source `Run`, the block `if *conf.Server.SSL.Enabled { ... }`: the
handler it leaves in `httpHandler`, the TLS server `s` it starts in the
background (none when TLS is disabled), and its events. -/
def RunTLS (conf : Configuration) : Handler × Option Server × List Event :=
  let httpHandler := Handler.engine
  if conf.Server.SSL.Enabled then
    let httpHandler :=
      if conf.Server.SSL.RedirectToHTTPS then
        Handler.redirectToHTTPS (stringOfInt conf.Server.SSL.Port)
      else httpHandler
    let addr := Sprintf_s_d conf.Server.SSL.ListenAddr conf.Server.SSL.Port
    let s : Server := { Addr := addr, Handler := Handler.engine, TLSConfig := none,
                        ConnState := none }
    let s := setKeepAlivePeriod s conf.Server.KeepAlivePeriodSeconds
    let wrapped : Handler × Server :=
      if conf.Server.SSL.LetsEncrypt.Enabled then
        let certManager : CertManager :=
          { Prompt := conf.Server.SSL.LetsEncrypt.AcceptTOS,
            HostPolicy := conf.Server.SSL.LetsEncrypt.Hosts,
            Cache := conf.Server.SSL.LetsEncrypt.Cache }
        (Handler.HTTPHandler certManager httpHandler,
         { s with TLSConfig := some { GetCertificate := certManager } })
      else (httpHandler, s)
    (wrapped.1, some wrapped.2,
     [Event.Println [go "Started Listening for TLS connection on " ++ addr],
      Event.GoListenAndServeTLS wrapped.2 conf.Server.SSL.CertFile conf.Server.SSL.CertKey])
  else (httpHandler, none, [])

/-- Source `Run`. `listen network address` is what `net.Listen` returns for
the plain address (a listener, or the text of an error) and `serveErr` is the
error `server.Serve` returns if its loop ever ends. -/
def Run (conf : Configuration) (listen : GoString → GoString → Except GoString Listener)
    (serveErr : GoString) : Outcome :=
  let tlsPart := RunTLS conf
  let httpHandler := tlsPart.1
  let addr := Sprintf_s_d conf.Server.ListenAddr conf.Server.Port
  let server : Server := { Addr := addr, Handler := httpHandler, TLSConfig := none,
                           ConnState := none }
  let server := setKeepAlivePeriod server conf.Server.KeepAlivePeriodSeconds
  let started := tlsPart.2.2 ++
    [Event.Println [go "Started Listening for plain HTTP connection on " ++ addr],
     Event.Listen (go "tcp") addr]
  match listen (go "tcp") addr with
  | Except.error err =>
    { s := tlsPart.2.1, server := server,
      trace := started ++
        [Event.Println [go "Could not start http server", err], Event.Exit 1] }
  | Except.ok conn =>
    { s := tlsPart.2.1, server := server,
      trace := started ++ [Event.Serve server conn, Event.LogFatal serveErr] }

/-! ## Sample inputs -/

/-- A configuration with plain address `0.0.0.0:80`, TLS address
`0.0.0.0:sslPort`, the given flags and keep-alive period, and issuance for
`example.com`. -/
def sampleConf (tls redirect issuance : Bool) (sslPort keepAlive : Int) : Configuration :=
  { Server :=
    { KeepAlivePeriodSeconds := keepAlive, ListenAddr := go "0.0.0.0", Port := 80,
      SSL :=
      { Enabled := tls, RedirectToHTTPS := redirect, ListenAddr := go "0.0.0.0",
        Port := sslPort, CertFile := go "cert.pem", CertKey := go "key.pem",
        LetsEncrypt :=
        { Enabled := issuance, AcceptTOS := true, Cache := go "certs",
          Hosts := [go "example.com"] } } } }

/-- A `net.Listen` that fails: the address is already in use. -/
def listenInUse : GoString → GoString → Except GoString Listener :=
  fun _ _ => Except.error (go "listen tcp 0.0.0.0:80: bind: address already in use")

/-- A `net.Listen` that succeeds with the listener on descriptor 3. -/
def listenBound : GoString → GoString → Except GoString Listener :=
  fun _ _ => Except.ok ⟨3⟩

/-- A server literal as `Run` writes them. -/
def sampleServer : Server :=
  { Addr := go "0.0.0.0:80", Handler := Handler.engine, TLSConfig := none, ConnState := none }

/-! ## Facts about the string primitives -/

theorem IndexByte_eq_none {s : GoString} {c : Byte} (h : c ∉ s) : IndexByte s c = none := by
  induction s with
  | nil => rfl
  | cons b s ih =>
    have hb : b ≠ c := fun e => h (by simp [e])
    have hs : c ∉ s := fun e => h (by simp [e])
    simp [IndexByte, hb, ih hs]

theorem LastIndexByte_eq_none {s : GoString} {c : Byte} (h : c ∉ s) :
    LastIndexByte s c = none := by
  induction s with
  | nil => rfl
  | cons b s ih =>
    have hb : b ≠ c := fun e => h (by simp [e])
    have hs : c ∉ s := fun e => h (by simp [e])
    simp [LastIndexByte, hb, ih hs]

theorem LastIndexByte_append {c : Byte} (h t : GoString) (ht : c ∉ t) :
    LastIndexByte (h ++ c :: t) c = some h.length := by
  induction h with
  | nil => simp [LastIndexByte, LastIndexByte_eq_none ht]
  | cons b h ih => simp [LastIndexByte, ih]

theorem go_colon : go ":" = [colon] := by decide

theorem SplitHostPort_host_port (h p0 : GoString)
    (hc : colon ∉ h) (hl : lbrack ∉ h) (hr : rbrack ∉ h)
    (pc : colon ∉ p0) (pl : lbrack ∉ p0) (pr : rbrack ∉ p0) :
    SplitHostPort (h ++ go ":" ++ p0) = Except.ok (h, p0) := by
  have hhead : ¬ (List.head? h = some lbrack ∨ h = [] ∧ colon = lbrack) := by
    rintro (h1 | ⟨_, h2⟩)
    · cases h with
      | nil => simp at h1
      | cons b h => exact hl (by simp at h1; simp [h1])
    · exact absurd h2 (by decide)
  have hlb : lbrack ∉ h ++ colon :: p0 := by
    intro hm
    rcases List.mem_append.1 hm with h1 | h1
    · exact hl h1
    · rcases List.mem_cons.1 h1 with h2 | h2
      · exact absurd h2 (by decide)
      · exact pl h2
  have hrb : rbrack ∉ h ++ colon :: p0 := by
    intro hm
    rcases List.mem_append.1 hm with h1 | h1
    · exact hr h1
    · rcases List.mem_cons.1 h1 with h2 | h2
      · exact absurd h2 (by decide)
      · exact pr h2
  simp only [go_colon, List.append_assoc, List.singleton_append]
  unfold SplitHostPort
  simp [LastIndexByte_append h p0 pc, hhead, IndexByte_eq_none hc, IndexByte_eq_none hlb,
    IndexByte_eq_none hrb]

/-! ## Claims about `changePort` -/

/-- C1: `changePort` substitutes the given port for the port of a host header
and keeps the host: for a host without `:`, `[`, `]`, `%` and an old port
without `:`, `[`, `]`, `changePort (h ++ ":" ++ p0) p = h ++ ":" ++ p`. -/
theorem changePort_substitutes_port (h p0 p : GoString)
    (hc : colon ∉ h) (hl : lbrack ∉ h) (hr : rbrack ∉ h) (_hp : percent ∉ h)
    (pc : colon ∉ p0) (pl : lbrack ∉ p0) (pr : rbrack ∉ p0) :
    changePort (h ++ go ":" ++ p0) p = h ++ go ":" ++ p := by
  unfold changePort
  rw [SplitHostPort_host_port h p0 hc hl hr pc pl pr]
  simp [JoinHostPort, IndexByte_eq_none hc]

/-- C1 at `"example.com:8080"` with port `"443"`: the result is
`"example.com:443"`. -/
theorem changePort_substitutes_port_witness :
    changePort (go "example.com" ++ go ":" ++ go "8080") (go "443")
      = go "example.com" ++ go ":" ++ go "443"
    ∧ go "example.com" ++ go ":" ++ go "8080" = go "example.com:8080"
    ∧ go "example.com" ++ go ":" ++ go "443" = go "example.com:443" :=
  ⟨changePort_substitutes_port (go "example.com") (go "8080") (go "443")
    (by decide) (by decide) (by decide) (by decide) (by decide) (by decide) (by decide),
   by decide, by decide⟩

/-- C2: `changePort` returns its input unchanged when host/port splitting
fails; splitting fails on every string without `:`, and on the empty string. -/
theorem changePort_unsplit_unchanged (hostPort p : GoString) :
    ((∃ e, SplitHostPort hostPort = Except.error e) → changePort hostPort p = hostPort)
    ∧ (colon ∉ hostPort → ∃ e, SplitHostPort hostPort = Except.error e)
    ∧ (∃ e, SplitHostPort [] = Except.error e) := by
  refine ⟨?_, ?_, ?_⟩
  · rintro ⟨e, he⟩
    simp [changePort, he]
  · intro hc
    exact ⟨⟨go "missing port in address", hostPort⟩, by
      simp [SplitHostPort, LastIndexByte_eq_none hc]⟩
  · exact ⟨⟨go "missing port in address", []⟩, rfl⟩

/-- C2 at the bare host `"example.com"`: splitting fails and the host is
returned as it is. -/
theorem changePort_unsplit_unchanged_witness :
    colon ∉ go "example.com"
    ∧ changePort (go "example.com") (go "443") = go "example.com" :=
  ⟨by decide,
   (changePort_unsplit_unchanged (go "example.com") (go "443")).1
     ((changePort_unsplit_unchanged (go "example.com") (go "443")).2.1 (by decide))⟩

/-! ## Facts about `http.Redirect` -/

theorem getScheme_https (t : GoString) :
    getScheme (go "https://" ++ t) = Except.ok ([104, 116, 116, 112, 115], 47 :: 47 :: t) := by
  have h : go "https://" = [104, 116, 116, 112, 115, 58, 47, 47] := by decide
  rw [h]
  rfl

theorem hexEscapeNonASCII_append (s t : GoString) :
    hexEscapeNonASCII (s ++ t) = hexEscapeNonASCII s ++ hexEscapeNonASCII t := by
  simp [hexEscapeNonASCII]

theorem hexEscapeNonASCII_ascii (s : GoString) (h : ∀ b ∈ s, b.val < 0x80) :
    hexEscapeNonASCII s = s := by
  induction s with
  | nil => rfl
  | cons b s ih =>
    have hb : ¬ (0x80 ≤ b.val) := Nat.not_le.2 (h b (by simp))
    have hs : hexEscapeNonASCII s = s := ih (fun c hc => h c (by simp [hc]))
    simp only [hexEscapeNonASCII] at hs ⊢
    simp [hb, hs]

theorem hexEscapeNonASCII_https : hexEscapeNonASCII (go "https://") = go "https://" := by
  decide

/-- The response `http.Redirect` writes to a fresh writer for a GET or HEAD
request and an `https` url has the given status and the hex-escaped url as
its `Location`. -/
theorem Redirect_https (r : Request) (t : GoString) (code : Nat)
    (hm : r.Method = go "GET" ∨ r.Method = go "HEAD") :
    ∃ w, Redirect newResponseWriter r (go "https://" ++ t) code = some w
      ∧ w.Status = some code
      ∧ headerGet w.Header (go "Location") = some (hexEscapeNonASCII (go "https://" ++ t)) := by
  have hkey : go "Location" ≠ go "Content-Type" := by decide
  have hhead : go "HEAD" ≠ go "GET" := by decide
  unfold Redirect
  rw [getScheme_https]
  rcases hm with hm | hm
  · simp [hm, newResponseWriter, headerGet, headerSet, headerDel, WriteHeader, Fprintln, hkey, hkey.symm]
  · simp [hm, newResponseWriter, headerGet, headerSet, headerDel, WriteHeader, hkey, hkey.symm, hhead]

/-! ## Claims about `redirectToHTTPS` -/

/-- C3, as the code has it: for every GET or HEAD request the redirect
responder built for `port` answers with status 302 Found, and its `Location`
header is `"https://"` followed by the hex-escaped `changePort r.Host port` and
the hex-escaped request URI (every byte `≥ 0x80` written as `%` and its
hexadecimal digits); when host, port and request URI hold ASCII bytes only,
`Location` is exactly `"https://" ++ changePort r.Host port ++ URI`. -/
theorem redirectToHTTPS_get_found (port : GoString) (r : Request)
    (hm : r.Method = go "GET" ∨ r.Method = go "HEAD") :
    ∃ w, redirectToHTTPS port r newResponseWriter = some w
      ∧ w.Status = some StatusFound
      ∧ headerGet w.Header (go "Location")
          = some (go "https://" ++ hexEscapeNonASCII (changePort r.Host port)
              ++ hexEscapeNonASCII r.URL_RequestURI)
      ∧ ((∀ b ∈ changePort r.Host port ++ r.URL_RequestURI, b.val < 0x80) →
          headerGet w.Header (go "Location")
            = some (go "https://" ++ changePort r.Host port ++ r.URL_RequestURI)) := by
  have hnot : ¬ (r.Method ≠ go "GET" ∧ r.Method ≠ go "HEAD") := by
    rintro ⟨h1, h2⟩
    rcases hm with h | h
    · exact h1 h
    · exact h2 h
  obtain ⟨w, hw, hs, hl⟩ :=
    Redirect_https r (changePort r.Host port ++ r.URL_RequestURI) StatusFound hm
  have hloc : headerGet w.Header (go "Location")
      = some (go "https://" ++ hexEscapeNonASCII (changePort r.Host port)
          ++ hexEscapeNonASCII r.URL_RequestURI) := by
    rw [hl, hexEscapeNonASCII_append, hexEscapeNonASCII_append, hexEscapeNonASCII_https,
      List.append_assoc]
  refine ⟨w, ?_, hs, hloc, ?_⟩
  · unfold redirectToHTTPS
    rw [if_neg hnot]
    simpa [List.append_assoc] using hw
  · intro hascii
    rw [hl, hexEscapeNonASCII_append, hexEscapeNonASCII_https,
      hexEscapeNonASCII_ascii _ hascii, List.append_assoc]

/-- C3 at a GET for host `"example.com:8080"` and URI `"/a?b=1"` with port
`"443"`: status 302 and `Location` `"https://example.com:443/a?b=1"`. -/
theorem redirectToHTTPS_get_found_witness :
    ∃ w, redirectToHTTPS (go "443") ⟨go "GET", go "example.com:8080", go "/a?b=1"⟩
        newResponseWriter = some w
      ∧ w.Status = some StatusFound
      ∧ headerGet w.Header (go "Location") = some (go "https://example.com:443/a?b=1") := by
  obtain ⟨w, hw, hs, _, hl⟩ :=
    redirectToHTTPS_get_found (go "443") ⟨go "GET", go "example.com:8080", go "/a?b=1"⟩
      (Or.inl rfl)
  exact ⟨w, hw, hs, (hl (by decide)).trans (by decide)⟩

/-- C3 as stated fails: for a GET whose query holds the two bytes of `é`, the
`Location` header is `"https://example.com:443/?q=%c3%a9"`, not
`"https://" ++ changePort host port ++ URI`. -/
theorem redirectToHTTPS_location_not_verbatim :
    ∃ w, redirectToHTTPS (go "443") ⟨go "GET", go "example.com:8080", go "/?q=é"⟩
        newResponseWriter = some w
      ∧ w.Status = some StatusFound
      ∧ headerGet w.Header (go "Location") = some (go "https://example.com:443/?q=%c3%a9")
      ∧ headerGet w.Header (go "Location")
          ≠ some (go "https://" ++ changePort (go "example.com:8080") (go "443")
              ++ go "/?q=é") :=
  ⟨_, rfl, by decide, by decide, by decide⟩

/-- C4, as the code has it: for every request whose method is neither GET nor
HEAD the redirect responder answers with status 400 Bad Request and the body
`"Use HTTPS"` followed by a newline, and issues no redirect: the status is not
302 and there is no `Location` header, whatever the host and the URI are. -/
theorem redirectToHTTPS_rejects_other_methods (port : GoString) (r : Request)
    (hg : r.Method ≠ go "GET") (hh : r.Method ≠ go "HEAD") :
    ∃ w, redirectToHTTPS port r newResponseWriter = some w
      ∧ w.Status = some StatusBadRequest
      ∧ w.Body = go "Use HTTPS\n"
      ∧ w.Status ≠ some StatusFound
      ∧ headerGet w.Header (go "Location") = none := by
  refine ⟨Error newResponseWriter (go "Use HTTPS") StatusBadRequest, ?_, ?_, ?_, ?_, ?_⟩
  · unfold redirectToHTTPS
    rw [if_pos ⟨hg, hh⟩]
  all_goals decide

/-- C4 at a POST for host `"example.com:8080"` and URI `"/login"`. -/
theorem redirectToHTTPS_rejects_other_methods_witness :
    ∃ w, redirectToHTTPS (go "443") ⟨go "POST", go "example.com:8080", go "/login"⟩
        newResponseWriter = some w
      ∧ w.Status = some StatusBadRequest
      ∧ w.Body = go "Use HTTPS\n"
      ∧ w.Status ≠ some StatusFound
      ∧ headerGet w.Header (go "Location") = none :=
  redirectToHTTPS_rejects_other_methods (go "443")
    ⟨go "POST", go "example.com:8080", go "/login"⟩ (by decide) (by decide)

/-- C4 as stated fails: the body written for a POST is `"Use HTTPS\n"`, the
message and a newline, which is not the string `"Use HTTPS"`. -/
theorem redirectToHTTPS_body_has_newline :
    ∃ w, redirectToHTTPS (go "443") ⟨go "POST", go "example.com:8080", go "/"⟩
        newResponseWriter = some w
      ∧ w.Status = some StatusBadRequest
      ∧ w.Body = go "Use HTTPS\n"
      ∧ w.Body ≠ go "Use HTTPS" :=
  ⟨_, rfl, by decide, by decide, by decide⟩

/-! ## Facts about `Run` -/

theorem RunTLS_handler (conf : Configuration) :
    (RunTLS conf).1 =
      if conf.Server.SSL.Enabled then
        if conf.Server.SSL.LetsEncrypt.Enabled then
          Handler.HTTPHandler
            ⟨conf.Server.SSL.LetsEncrypt.AcceptTOS, conf.Server.SSL.LetsEncrypt.Hosts,
              conf.Server.SSL.LetsEncrypt.Cache⟩
            (if conf.Server.SSL.RedirectToHTTPS then
              Handler.redirectToHTTPS (stringOfInt conf.Server.SSL.Port)
             else Handler.engine)
        else if conf.Server.SSL.RedirectToHTTPS then
          Handler.redirectToHTTPS (stringOfInt conf.Server.SSL.Port)
        else Handler.engine
      else Handler.engine := by
  unfold RunTLS
  cases conf.Server.SSL.Enabled <;> cases conf.Server.SSL.LetsEncrypt.Enabled <;> simp

theorem RunTLS_events_not_serve (conf : Configuration) :
    ∀ e ∈ (RunTLS conf).2.2, e.isServe = false := by
  unfold RunTLS
  cases conf.Server.SSL.Enabled <;> simp [Event.isServe]

theorem Run_server (conf : Configuration)
    (listen : GoString → GoString → Except GoString Listener) (serveErr : GoString) :
    (Run conf listen serveErr).server =
      setKeepAlivePeriod
        { Addr := Sprintf_s_d conf.Server.ListenAddr conf.Server.Port,
          Handler := (RunTLS conf).1, TLSConfig := none, ConnState := none }
        conf.Server.KeepAlivePeriodSeconds := by
  unfold Run
  dsimp only
  split <;> rfl

theorem Run_s (conf : Configuration)
    (listen : GoString → GoString → Except GoString Listener) (serveErr : GoString) :
    (Run conf listen serveErr).s = (RunTLS conf).2.1 := by
  unfold Run
  dsimp only
  split <;> rfl

theorem setKeepAlivePeriod_Handler (srv : Server) (n : Int) :
    (setKeepAlivePeriod srv n).Handler = srv.Handler := by
  unfold setKeepAlivePeriod
  split <;> rfl

theorem wrapInt64_of_range (x : Int) (hlo : -9223372036854775808 ≤ x)
    (hhi : x ≤ 9223372036854775807) : wrapInt64 x = x := by
  unfold wrapInt64
  norm_num
  omega

/-! ## Claims about `Run` and the redirect port -/

/-- C5, where the code departs from it: with TLS and redirect enabled and TLS
port 443, the TLS server binds `0.0.0.0:443`, but the port string `Run` passes
to `redirectToHTTPS` is `string(443)`, the two bytes `0xC6 0xBB` of the code
point U+01BB and not the decimal `"443"`; a GET for host `"example.com:8080"`
is redirected to `"https://example.com:%c6%bb/"`, not to a `Location` whose
host is `"example.com:443"`. -/
theorem Run_redirect_port_is_code_point :
    (Run (sampleConf true true false 443 0) listenBound []).server.Handler
        = Handler.redirectToHTTPS (stringOfInt 443)
    ∧ (Run (sampleConf true true false 443 0) listenBound []).s.map (fun s => s.Addr)
        = some (go "0.0.0.0:443")
    ∧ stringOfInt 443 = [0xC6, 0xBB]
    ∧ stringOfInt 443 ≠ formatInt 443
    ∧ (∃ w, redirectToHTTPS (stringOfInt 443) ⟨go "GET", go "example.com:8080", go "/"⟩
          newResponseWriter = some w
        ∧ headerGet w.Header (go "Location") = some (go "https://example.com:%c6%bb/")
        ∧ headerGet w.Header (go "Location") ≠ some (go "https://example.com:443/")) :=
  ⟨by decide, by decide, by decide, by decide, _, rfl, by decide, by decide⟩

/-- C6, as the code has it: the handler `Run` gives to the plain server is
decided by the three flags: the application handler when TLS is disabled or
when TLS is enabled with neither redirect nor issuance; the redirect responder
for the TLS port when TLS and redirect are enabled without issuance; the
ACME challenge handler wrapped around the application handler when TLS and
issuance are enabled without redirect; the ACME challenge handler wrapped
around the redirect responder when all three are enabled. The application
handler is reachable on the plain listener exactly when TLS and redirect are
not both enabled. -/
theorem Run_plain_handler_table (conf : Configuration)
    (listen : GoString → GoString → Except GoString Listener) (serveErr : GoString) :
    (Run conf listen serveErr).server.Handler =
      (match conf.Server.SSL.Enabled, conf.Server.SSL.RedirectToHTTPS,
          conf.Server.SSL.LetsEncrypt.Enabled with
        | false, _, _ => Handler.engine
        | true, false, false => Handler.engine
        | true, true, false => Handler.redirectToHTTPS (stringOfInt conf.Server.SSL.Port)
        | true, false, true =>
          Handler.HTTPHandler
            ⟨conf.Server.SSL.LetsEncrypt.AcceptTOS, conf.Server.SSL.LetsEncrypt.Hosts,
              conf.Server.SSL.LetsEncrypt.Cache⟩ Handler.engine
        | true, true, true =>
          Handler.HTTPHandler
            ⟨conf.Server.SSL.LetsEncrypt.AcceptTOS, conf.Server.SSL.LetsEncrypt.Hosts,
              conf.Server.SSL.LetsEncrypt.Cache⟩
            (Handler.redirectToHTTPS (stringOfInt conf.Server.SSL.Port)))
    ∧ (Run conf listen serveErr).server.Handler.servesEngine
        = !(conf.Server.SSL.Enabled && conf.Server.SSL.RedirectToHTTPS) := by
  rw [Run_server, setKeepAlivePeriod_Handler]
  simp only [RunTLS_handler]
  cases conf.Server.SSL.Enabled <;> cases conf.Server.SSL.RedirectToHTTPS <;>
    cases conf.Server.SSL.LetsEncrypt.Enabled <;> simp [Handler.servesEngine]

/-- C6 as stated fails: with TLS, redirect and issuance all enabled the plain
handler is the ACME challenge handler wrapped around the redirect responder,
which is not the redirect responder. -/
theorem Run_plain_handler_all_flags :
    (Run (sampleConf true true true 443 0) listenBound []).server.Handler
        = Handler.HTTPHandler ⟨true, [go "example.com"], go "certs"⟩
            (Handler.redirectToHTTPS (stringOfInt 443))
    ∧ (Run (sampleConf true true true 443 0) listenBound []).server.Handler
        ≠ Handler.redirectToHTTPS (stringOfInt 443) :=
  ⟨by decide, by decide⟩

/-! ## Claims about `setKeepAlivePeriod` -/

/-- C7, where the code departs from it: with keep-alive period 30 and TLS
enabled, the observer of the plain server sets the period on a new TCP
connection, but the observer of the TLS server, notified of a new TLS
connection wrapping a TCP connection, fails in the conversion to a TCP
connection with a run-time panic and makes no set call. -/
theorem keepAlive_observer_panics_on_TLSConn :
    (∃ obs, (Run (sampleConf true false false 443 30) listenBound []).server.ConnState
          = some obs
        ∧ obs (Conn.TCPConn 7) ConnState.StateNew (fun _ _ => none)
          = Except.ok [ConnEvent.SetKeepAlivePeriod 7 30000000000])
    ∧ (∃ obs, (Run (sampleConf true false false 443 30) listenBound []).s.bind
            (fun s => s.ConnState) = some obs
        ∧ obs (Conn.TLSConn (Conn.TCPConn 8)) ConnState.StateNew (fun _ _ => none)
          = Except.error
              (go "interface conversion: net.Conn is *tls.Conn, not *net.TCPConn")) :=
  ⟨⟨_, rfl, rfl⟩, ⟨_, rfl, rfl⟩⟩

/-- C8, as the code has it: for every non-zero period `n` of at most
9223372036 seconds in absolute value (so that `n` seconds fit the 64-bit
nanosecond count of `time.Duration`), the observer installed by
`setKeepAlivePeriod` makes exactly one set call, with exactly `n` seconds, on
a TCP connection that enters the state new, followed only by a printed line
when the call returns an error; it makes no call for any other state. -/
theorem keepAlive_observer_sets_period (srv : Server) (n : Int) (fd : Nat)
    (sockopt : SockOpt) (hn : n ≠ 0) (hlo : -9223372036 ≤ n) (hhi : n ≤ 9223372036) :
    ∃ obs, (setKeepAlivePeriod srv n).ConnState = some obs
      ∧ obs (Conn.TCPConn fd) ConnState.StateNew sockopt
          = Except.ok (ConnEvent.SetKeepAlivePeriod fd (n * Second) ::
              match sockopt fd (n * Second) with
              | some err => [ConnEvent.Println [go "Could not set keep alive period", err]]
              | none => [])
      ∧ ∀ conn state, state ≠ ConnState.StateNew → obs conn state sockopt = Except.ok [] := by
  have hw : wrapInt64 (n * Second) = n * Second := by
    apply wrapInt64_of_range <;> unfold Second <;> omega
  unfold setKeepAlivePeriod
  rw [if_neg hn]
  refine ⟨_, rfl, ?_, ?_⟩
  · simp only [assertTCPConn, hw, if_true]
    cases sockopt fd (n * Second) <;> rfl
  · intro conn state hs
    simp [hs]

/-- C8 at period 30: one set call with 30 seconds on a new TCP connection. -/
theorem keepAlive_observer_sets_period_witness :
    ∃ obs, (setKeepAlivePeriod sampleServer 30).ConnState = some obs
      ∧ obs (Conn.TCPConn 7) ConnState.StateNew (fun _ _ => none)
          = Except.ok [ConnEvent.SetKeepAlivePeriod 7 (30 * Second)]
      ∧ ∀ conn state, state ≠ ConnState.StateNew →
          obs conn state (fun _ _ => none) = Except.ok [] :=
  keepAlive_observer_sets_period sampleServer 30 7 (fun _ _ => none)
    (by decide) (by decide) (by decide)

/-- C8 as stated fails: for the non-zero period 9223372037 the product with
`time.Second` leaves the 64-bit range, and the one set call is made with
-9223372036709551616 nanoseconds, not with 9223372037 seconds. -/
theorem keepAlive_observer_period_overflow :
    ∃ obs, (setKeepAlivePeriod sampleServer 9223372037).ConnState = some obs
      ∧ obs (Conn.TCPConn 7) ConnState.StateNew (fun _ _ => none)
          = Except.ok [ConnEvent.SetKeepAlivePeriod 7 (-9223372036709551616)]
      ∧ (-9223372036709551616 : Int) ≠ 9223372037 * Second :=
  ⟨_, rfl, rfl, by decide⟩

/-- C9: `setKeepAlivePeriod` with period 0 returns the server unchanged; for
every period the address, the handler and the TLS configuration are kept, so
only the connection-state observer can change; and the servers `Run` builds
with period 0 have no observer. -/
theorem setKeepAlivePeriod_frame (srv : Server) (n : Int) :
    setKeepAlivePeriod srv 0 = srv
    ∧ (setKeepAlivePeriod srv n).Addr = srv.Addr
    ∧ (setKeepAlivePeriod srv n).Handler = srv.Handler
    ∧ (setKeepAlivePeriod srv n).TLSConfig = srv.TLSConfig
    ∧ (n ≠ 0 → (setKeepAlivePeriod srv n).ConnState.isSome = true)
    ∧ (∀ (conf : Configuration) (listen : GoString → GoString → Except GoString Listener)
        (serveErr : GoString), conf.Server.KeepAlivePeriodSeconds = 0 →
        (Run conf listen serveErr).server.ConnState.isNone = true
        ∧ ∀ s, (Run conf listen serveErr).s = some s → s.ConnState.isNone = true) := by
  refine ⟨rfl, ?_, ?_, ?_, ?_, ?_⟩
  · unfold setKeepAlivePeriod
    split <;> rfl
  · exact setKeepAlivePeriod_Handler srv n
  · unfold setKeepAlivePeriod
    split <;> rfl
  · intro hn
    unfold setKeepAlivePeriod
    rw [if_neg hn]
    rfl
  · intro conf listen serveErr h0
    refine ⟨?_, ?_⟩
    · rw [Run_server, h0]
      rfl
    · intro s hs
      rw [Run_s] at hs
      unfold RunTLS at hs
      rw [h0] at hs
      cases hE : conf.Server.SSL.Enabled <;> rw [hE] at hs
      · simp at hs
      · cases hL : conf.Server.SSL.LetsEncrypt.Enabled <;> rw [hL] at hs <;>
          simp at hs <;> subst hs <;> rfl

/-- C9 at the sample configuration with period 0 and TLS enabled: neither
server has an observer. -/
theorem setKeepAlivePeriod_frame_witness :
    (Run (sampleConf true true false 443 0) listenBound []).server.ConnState.isNone = true
    ∧ ∀ s, (Run (sampleConf true true false 443 0) listenBound []).s = some s →
        s.ConnState.isNone = true :=
  (setKeepAlivePeriod_frame sampleServer 0).2.2.2.2.2
    (sampleConf true true false 443 0) listenBound [] rfl

/-! ## Claim about the bind failure -/

/-- C10: when binding the plain listener to `listenAddr:port` fails, the
trace of `Run` ends with the call of `net.Listen`, the printed diagnostic and
the exit with status 1, and holds no entry into a serve loop; when the bind
succeeds, the serve loop is entered right after it, with the plain server and
on the listener the bind returned. -/
theorem Run_bind_failure_exits (conf : Configuration)
    (listen : GoString → GoString → Except GoString Listener) (serveErr : GoString) :
    (∀ err, listen (go "tcp") (Sprintf_s_d conf.Server.ListenAddr conf.Server.Port)
        = Except.error err →
      (∃ pre, (Run conf listen serveErr).trace = pre ++
          [Event.Listen (go "tcp") (Sprintf_s_d conf.Server.ListenAddr conf.Server.Port),
           Event.Println [go "Could not start http server", err], Event.Exit 1])
      ∧ (Run conf listen serveErr).trace.any Event.isServe = false)
    ∧ (∀ conn, listen (go "tcp") (Sprintf_s_d conf.Server.ListenAddr conf.Server.Port)
        = Except.ok conn →
      ∃ pre, (∀ e ∈ pre, e.isServe = false)
        ∧ (Run conf listen serveErr).trace = pre ++
          [Event.Listen (go "tcp") (Sprintf_s_d conf.Server.ListenAddr conf.Server.Port),
           Event.Serve (Run conf listen serveErr).server conn, Event.LogFatal serveErr]) := by
  have hpre := RunTLS_events_not_serve conf
  refine ⟨?_, ?_⟩
  · intro err herr
    have htrace : (Run conf listen serveErr).trace = ((RunTLS conf).2.2 ++
        [Event.Println [go "Started Listening for plain HTTP connection on " ++
          Sprintf_s_d conf.Server.ListenAddr conf.Server.Port]]) ++
        [Event.Listen (go "tcp") (Sprintf_s_d conf.Server.ListenAddr conf.Server.Port),
         Event.Println [go "Could not start http server", err], Event.Exit 1] := by
      unfold Run
      simp [herr]
    refine ⟨⟨_, htrace⟩, ?_⟩
    rw [htrace]
    simp only [List.any_append, List.any_cons, List.any_nil, Event.isServe, Bool.or_false,
      Bool.or_eq_false_iff, and_true]
    exact List.any_eq_false.2 (fun e he => by simp [hpre e he])
  · intro conn hconn
    refine ⟨(RunTLS conf).2.2 ++
        [Event.Println [go "Started Listening for plain HTTP connection on " ++
          Sprintf_s_d conf.Server.ListenAddr conf.Server.Port]], ?_, ?_⟩
    · intro e he
      rcases List.mem_append.1 he with h | h
      · exact hpre e h
      · simp at h
        subst h
        rfl
    · rw [Run_server]
      unfold Run
      simp [hconn]

/-- C10 at the sample configuration with TLS enabled and an address already
in use: the trace ends with the diagnostic and exit status 1 and never enters
a serve loop. -/
theorem Run_bind_failure_exits_witness :
    (∃ pre, (Run (sampleConf true true false 443 30) listenInUse []).trace = pre ++
        [Event.Listen (go "tcp") (Sprintf_s_d (go "0.0.0.0") 80),
         Event.Println [go "Could not start http server",
           go "listen tcp 0.0.0.0:80: bind: address already in use"], Event.Exit 1])
    ∧ (Run (sampleConf true true false 443 30) listenInUse []).trace.any Event.isServe
        = false :=
  (Run_bind_failure_exits (sampleConf true true false 443 30) listenInUse []).1
    (go "listen tcp 0.0.0.0:80: bind: address already in use") rfl


end Runner
